import Mathlib

/-!
# Verification of the hotel-back submission/room backend

Shallow embedding of `src/server.js` (the main variant, plus the parts of
variant 1 that differ where relevant).  The SQLite tables become explicit
Lean lists, the HTTP handlers become pure functions from a `Store` and the
request fields to a new `Store` and an `Outcome`, and `JSON.parse` /
`JSON.stringify` are embedded as an executable JSON parser and serializer.
-/

namespace HotelBack

/-! ## JSON values and `JSON.parse` / `JSON.stringify`

`Json` models the values produced by `JSON.parse`.  Number literals are kept
as their source text (the program never computes with parsed numbers), and
objects keep their member list in source order. -/

inductive Json where
  | null : Json
  | bool : Bool → Json
  | num : String → Json
  | str : String → Json
  | arr : List Json → Json
  | obj : List (String × Json) → Json
  deriving Repr, BEq

/-- JSON insignificant whitespace characters. -/
def isWsChar (c : Char) : Bool :=
  c = ' ' || c = '\t' || c = '\n' || c = '\r'

/-- Skip insignificant whitespace, as `JSON.parse` does between tokens. -/
def skipWs (cs : List Char) : List Char :=
  cs.dropWhile isWsChar

/-- Value of one hexadecimal digit, as accepted in a `\uXXXX` escape. -/
def hexVal (c : Char) : Option Nat :=
  if '0' ≤ c ∧ c ≤ '9' then some (c.toNat - '0'.toNat)
  else if 'a' ≤ c ∧ c ≤ 'f' then some (c.toNat - 'a'.toNat + 10)
  else if 'A' ≤ c ∧ c ≤ 'F' then some (c.toNat - 'A'.toNat + 10)
  else none

/-- The single-character JSON string escapes (`\"`, `\\`, `\/`, `\b`, `\f`,
`\n`, `\r`, `\t`). -/
def unescapeChar (c : Char) : Option Char :=
  if c = '"' then some '"'
  else if c = '\\' then some '\\'
  else if c = '/' then some '/'
  else if c = 'b' then some (Char.ofNat 8)
  else if c = 'f' then some (Char.ofNat 12)
  else if c = 'n' then some '\n'
  else if c = 'r' then some '\r'
  else if c = 't' then some '\t'
  else none

/-- Body of a JSON string literal, after the opening quote: returns the
decoded characters and the input after the closing quote.  Unescaped control
characters are rejected, as in the JSON grammar. -/
def parseStrAux : List Char → Option (List Char × List Char)
  | [] => none
  | c :: cs =>
    if c = '"' then some ([], cs)
    else if c = '\\' then
      match cs with
      | [] => none
      | e :: cs₁ =>
        if e = 'u' then
          match cs₁ with
          | h₁ :: h₂ :: h₃ :: h₄ :: cs₂ =>
            match hexVal h₁, hexVal h₂, hexVal h₃, hexVal h₄ with
            | some a, some b, some v, some d =>
              (parseStrAux cs₂).map fun r =>
                (Char.ofNat (((a * 16 + b) * 16 + v) * 16 + d) :: r.1, r.2)
            | _, _, _, _ => none
          | _ => none
        else
          match unescapeChar e with
          | some c₂ => (parseStrAux cs₁).map fun r => (c₂ :: r.1, r.2)
          | none => none
    else if c.toNat < 32 then none
    else (parseStrAux cs).map fun r => (c :: r.1, r.2)

/-- JSON number literal (sign, integer part without leading zeros, optional
fraction and exponent): returns the literal text and the remaining input. -/
def parseNumber (cs : List Char) : Option (List Char × List Char) :=
  let (sign, cs₁) : List Char × List Char :=
    match cs with
    | '-' :: t => (['-'], t)
    | _ => ([], cs)
  let intPart := cs₁.takeWhile Char.isDigit
  let rest₁ := cs₁.dropWhile Char.isDigit
  if intPart.isEmpty then none
  else if intPart.length > 1 && intPart.headD '0' = '0' then none
  else
    let (fracPart, rest₂) : List Char × List Char :=
      match rest₁ with
      | '.' :: t =>
        if (t.takeWhile Char.isDigit).isEmpty then ([], rest₁)
        else ('.' :: t.takeWhile Char.isDigit, t.dropWhile Char.isDigit)
      | _ => ([], rest₁)
    match rest₁, fracPart with
    | '.' :: _, [] => none
    | _, _ =>
      let (expPart, rest₃) : List Char × List Char :=
        match rest₂ with
        | e :: t =>
          if e = 'e' || e = 'E' then
            let (sgn, t₁) : List Char × List Char :=
              match t with
              | s :: t₂ => if s = '+' || s = '-' then ([s], t₂) else ([], t)
              | [] => ([], t)
            if (t₁.takeWhile Char.isDigit).isEmpty then ([], rest₂)
            else (e :: sgn ++ t₁.takeWhile Char.isDigit, t₁.dropWhile Char.isDigit)
          else ([], rest₂)
        | [] => ([], rest₂)
      match rest₂, expPart with
      | e :: _, [] =>
        if e = 'e' || e = 'E' then none
        else some (sign ++ intPart ++ fracPart, rest₂)
      | _, _ => some (sign ++ intPart ++ fracPart ++ expPart, rest₃)

mutual

/-- One JSON value, with `fuel` bounding the nesting/element count
(`JSON.parse`).  Leading whitespace is skipped. -/
def parseJson : Nat → List Char → Option (Json × List Char)
  | 0, _ => none
  | f + 1, cs =>
    match skipWs cs with
    | [] => none
    | c :: cs₁ =>
      if c = '"' then
        (parseStrAux cs₁).map fun r => (Json.str (String.mk r.1), r.2)
      else if c = '[' then
        (parseItemsJ f (skipWs cs₁)).map fun r => (Json.arr r.1, r.2)
      else if c = Char.ofNat 123 then
        (parseMembersJ f (skipWs cs₁)).map fun r => (Json.obj r.1, r.2)
      else if c = 't' then
        match cs₁ with
        | 'r' :: 'u' :: 'e' :: rest => some (Json.bool true, rest)
        | _ => none
      else if c = 'f' then
        match cs₁ with
        | 'a' :: 'l' :: 's' :: 'e' :: rest => some (Json.bool false, rest)
        | _ => none
      else if c = 'n' then
        match cs₁ with
        | 'u' :: 'l' :: 'l' :: rest => some (Json.null, rest)
        | _ => none
      else
        (parseNumber (c :: cs₁)).map fun r => (Json.num (String.mk r.1), r.2)

/-- Array elements, positioned after `[` (whitespace already skipped):
either `]` at once, or values separated by commas. -/
def parseItemsJ : Nat → List Char → Option (List Json × List Char)
  | 0, _ => none
  | f + 1, cs =>
    match cs with
    | ']' :: rest => some ([], rest)
    | _ =>
      match parseJson f cs with
      | some (j, rest₁) =>
        match skipWs rest₁ with
        | ',' :: rest₂ =>
          match skipWs rest₂ with
          | ']' :: _ => none
          | cs₂ => (parseItemsJ f cs₂).map fun r => (j :: r.1, r.2)
        | ']' :: rest₂ => some ([j], rest₂)
        | _ => none
      | none => none

/-- Object members, positioned after the opening brace (whitespace already
skipped). -/
def parseMembersJ : Nat → List Char → Option (List (String × Json) × List Char)
  | 0, _ => none
  | f + 1, cs =>
    match cs with
    | c :: rest =>
      if c = Char.ofNat 125 then some ([], rest)
      else if c = '"' then
        match parseStrAux rest with
        | some (k, rest₁) =>
          match skipWs rest₁ with
          | ':' :: rest₂ =>
            match parseJson f rest₂ with
            | some (v, rest₃) =>
              match skipWs rest₃ with
              | ',' :: rest₄ =>
                match skipWs rest₄ with
                | '"' :: _ =>
                  (parseMembersJ f (skipWs rest₄)).map fun r =>
                    ((String.mk k, v) :: r.1, r.2)
                | _ => none
              | c₂ :: rest₄ =>
                if c₂ = Char.ofNat 125 then some ([(String.mk k, v)], rest₄)
                else none
              | [] => none
            | none => none
          | _ => none
        | none => none
      else none
    | [] => none

end

/-- Embeds `JSON.parse` on a whole string: the parse must consume everything but
trailing whitespace.  The fuel `s.length + 1` never runs out before the
input does, since every recursive step consumes at least one character. -/
def jsonParse (s : String) : Option Json :=
  match parseJson (s.length + 1) s.data with
  | some (j, rest) => if skipWs rest = [] then some j else none
  | none => none

/-- Lowercase hexadecimal digit for a value below 16. -/
def hexDigit (n : Nat) : Char :=
  if n < 10 then Char.ofNat ('0'.toNat + n) else Char.ofNat ('a'.toNat + n - 10)

/-- Embeds `JSON.stringify` escaping of one character inside a string literal. -/
def escChar (c : Char) : List Char :=
  if c = '"' then ['\\', '"']
  else if c = '\\' then ['\\', '\\']
  else if c = Char.ofNat 8 then ['\\', 'b']
  else if c = '\t' then ['\\', 't']
  else if c = '\n' then ['\\', 'n']
  else if c = Char.ofNat 12 then ['\\', 'f']
  else if c = '\r' then ['\\', 'r']
  else if c.toNat < 32 then
    ['\\', 'u', '0', '0', hexDigit (c.toNat / 16), hexDigit (c.toNat % 16)]
  else [c]

/-- Embeds `JSON.stringify` of a string value (characters of the literal). -/
def encStr (s : String) : List Char :=
  '"' :: (s.data.flatMap escChar ++ ['"'])

/-- Embeds `JSON.stringify` of an array of strings, after the opening bracket:
elements joined by commas, then the closing bracket. -/
def encItemsAux : List String → List Char
  | [] => [']']
  | [s] => encStr s ++ [']']
  | s :: ss => encStr s ++ ',' :: encItemsAux ss

/-- Embeds `JSON.stringify(amenities)` for an array of text labels, exactly as the
room create/update handlers serialize the `amenities` field. -/
def encodeAmenities (l : List String) : String :=
  String.mk ('[' :: encItemsAux l)

/-! ## Timestamps

SQLite `CURRENT_TIMESTAMP` stores `YYYY-MM-DD HH:MM:SS` text; the handlers
stamp responses with `new Date().toISOString()`, which is
`YYYY-MM-DDTHH:MM:SS.mmmZ`.  Both are pure functions of the wall-clock
instant, modelled as a broken-down `DateTime`. -/

structure DateTime where
  year : Nat
  month : Nat
  day : Nat
  hour : Nat
  minute : Nat
  second : Nat
  ms : Nat
  deriving Repr, DecidableEq

def pad2 (n : Nat) : String := if n < 10 then "0" ++ toString n else toString n

def pad3 (n : Nat) : String :=
  if n < 10 then "00" ++ toString n
  else if n < 100 then "0" ++ toString n
  else toString n

def pad4 (n : Nat) : String :=
  if n < 10 then "000" ++ toString n
  else if n < 100 then "00" ++ toString n
  else if n < 1000 then "0" ++ toString n
  else toString n

/-- SQLite `CURRENT_TIMESTAMP` text for an instant. -/
def sqliteFormat (t : DateTime) : String :=
  pad4 t.year ++ "-" ++ pad2 t.month ++ "-" ++ pad2 t.day ++ " " ++
    pad2 t.hour ++ ":" ++ pad2 t.minute ++ ":" ++ pad2 t.second

/-- The `Date.prototype.toISOString` text for the same instant. -/
def isoFormat (t : DateTime) : String :=
  pad4 t.year ++ "-" ++ pad2 t.month ++ "-" ++ pad2 t.day ++ "T" ++
    pad2 t.hour ++ ":" ++ pad2 t.minute ++ ":" ++ pad2 t.second ++ "." ++
    pad3 t.ms ++ "Z"

/-! ## The store: the two SQLite tables -/

/-- A row of the `submissions` table. -/
structure SubRow where
  id : Nat
  student_name : String
  work_type : String
  content : String
  created_at : String
  deriving Repr, DecidableEq

/-- A row of the `rooms` table.  `capacity` is `INTEGER`; `price` is `REAL`,
but every value the program handles is integral, so it is embedded as `Int`.
`status` has no NOT NULL constraint (a `PUT` can store NULL), hence
`Option`. -/
structure RoomRow where
  id : Nat
  number : String
  type : String
  capacity : Int
  price : Int
  amenities : String
  status : Option String
  created_at : String
  deriving Repr, DecidableEq

/-- The in-memory database: both tables in insertion order together with the
`AUTOINCREMENT` counters (next id to assign; never decremented, so ids are
never reused). -/
structure Store where
  submissions : List SubRow
  subNextId : Nat
  rooms : List RoomRow
  roomNextId : Nat
  deriving Repr, DecidableEq

/-- The freshly initialized store: empty `submissions`, and the five seeded
sample rooms (ids 1–5 in insertion order), stamped at seeding time `t`. -/
def initStore (t : DateTime) : Store where
  submissions := []
  subNextId := 1
  rooms :=
    [⟨1, "101", "Standard", 2, 2500, encodeAmenities ["WiFi", "AC", "TV"],
      some "available", sqliteFormat t⟩,
     ⟨2, "102", "Standard", 2, 2500, encodeAmenities ["WiFi", "AC", "TV"],
      some "occupied", sqliteFormat t⟩,
     ⟨3, "201", "Deluxe", 3, 3500, encodeAmenities ["WiFi", "AC", "TV", "Mini Bar"],
      some "available", sqliteFormat t⟩,
     ⟨4, "202", "Deluxe", 3, 3500, encodeAmenities ["WiFi", "AC", "TV", "Mini Bar"],
      some "maintenance", sqliteFormat t⟩,
     ⟨5, "301", "Suite", 4, 5000, encodeAmenities ["WiFi", "AC", "TV", "Mini Bar", "Balcony"],
      some "available", sqliteFormat t⟩]
  roomNextId := 6

/-- Well-formedness of a store, maintained by every operation: ids are below
the autoincrement counters and duplicate-free, and room numbers are unique
(the `UNIQUE` constraint). -/
def WF (s : Store) : Prop :=
  (∀ r ∈ s.submissions, r.id < s.subNextId) ∧
  (s.submissions.map SubRow.id).Nodup ∧
  (∀ r ∈ s.rooms, r.id < s.roomNextId) ∧
  (s.rooms.map RoomRow.id).Nodup ∧
  (s.rooms.map RoomRow.number).Nodup

instance (s : Store) : Decidable (WF s) := by
  unfold WF; infer_instance

/-! ## SELECT ordering

`ORDER BY` is embedded as a stable insertion sort: an element is placed
before the first element it strictly precedes. -/

def insertSorted (before : α → α → Bool) (a : α) : List α → List α
  | [] => [a]
  | b :: bs => if before b a then b :: insertSorted before a bs else a :: b :: bs

def sortBy (before : α → α → Bool) : List α → List α
  | [] => []
  | x :: xs => insertSorted before x (sortBy before xs)

/-- Embeds `SELECT * FROM submissions ORDER BY created_at DESC`.  SQLite's BINARY
collation compares UTF-8 bytes, which on UTF-8 agrees with lexicographic
order on code points, embedded here as the list order on `String.data`. -/
def selectSubmissions (s : Store) : List SubRow :=
  sortBy (fun a b => decide (b.created_at.data < a.created_at.data)) s.submissions

/-- Embeds `SELECT * FROM rooms ORDER BY number ASC` (same collation). -/
def selectRooms (s : Store) : List RoomRow :=
  sortBy (fun a b => decide (a.number.data < b.number.data)) s.rooms

/-! ## Requests, responses and JS truthiness -/

/-- An HTTP response: status code and JSON body (`res.json`). -/
structure HttpResponse where
  status : Nat
  body : Json
  deriving Repr

/-- Outcome of a handler: a response, or an exception thrown inside the
database callback (no response is ever sent; in Node this is an uncaught
exception). -/
inductive Outcome where
  | res : HttpResponse → Outcome
  | crash : Outcome
  deriving Repr

/-- Embeds `res.status(status).json({ success: false, error: msg })`. -/
def mkErr (status : Nat) (msg : String) : HttpResponse :=
  ⟨status, Json.obj [("success", Json.bool false), ("error", Json.str msg)]⟩

/-- JS truthiness of a request field holding a string (`!x` is true exactly
for an absent/null field or the empty string). -/
def truthyS : Option String → Bool
  | none => false
  | some s => !(s == "")

/-- JS truthiness of a numeric request field (`0` is falsy). -/
def truthyI : Option Int → Bool
  | none => false
  | some n => !(n == 0)

/-- JS `x || d` for an optional string. -/
def jsStrOr (v : Option String) (d : String) : String :=
  match v with
  | some s => if s == "" then d else s
  | none => d

def validWorkTypes : List String := ["room_request", "report", "financial_report"]

def missingSubMsg : String := "Missing required fields: studentName, workType, content"

def invalidTypeMsg (wt : String) : String :=
  "Invalid work type: " ++ wt ++ ". Valid types: " ++ String.intercalate ", " validWorkTypes

def missingRoomMsg : String := "Missing required fields: number, type, capacity, price"

def roomNotFoundMsg : String := "Room not found"

def dbErr (m : String) : String := "Database error: " ++ m

def uniqueNumberMsg : String := "SQLITE_CONSTRAINT: UNIQUE constraint failed: rooms.number"

def notNullMsg (col : String) : String :=
  "SQLITE_CONSTRAINT: NOT NULL constraint failed: rooms." ++ col

/-! ## Row-to-response transformation (the JS handlers' `rows.map`) -/

/-- Property access `j.k` on a parsed JSON value: `undefined` (`none`) unless
`j` is an object with member `k` (last duplicate wins, as in `JSON.parse`). -/
def objGet (j : Json) (k : String) : Option Json :=
  match j with
  | Json.obj kvs => kvs.foldl (fun acc kv => if kv.1 == k then some kv.2 else acc) none
  | _ => none

/-- Is the digit part of a JSON number literal all zeros (so that the JS
number it denotes is `0`, hence falsy)? -/
def numLitIsZero (lit : String) : Bool :=
  (lit.data.takeWhile (fun c => !(c == 'e') && !(c == 'E'))).all
    (fun c => c == '0' || c == '.' || c == '-' || c == '+')

/-- JS truthiness of a parsed JSON value. -/
def jsTruthy : Json → Bool
  | Json.null => false
  | Json.bool b => b
  | Json.str s => !(s == "")
  | Json.num lit => !(numLitIsZero lit)
  | Json.arr _ => true
  | Json.obj _ => true

/-- JS `v || d` where `v` is a (possibly undefined) property of a parsed
object. -/
def jsOr (v : Option Json) (d : Json) : Json :=
  match v with
  | some x => if jsTruthy x then x else d
  | none => d

/-- One member of a response object for a property that `res.json` omits
when it is `undefined`. -/
def optPair (k : String) (v : Option Json) : List (String × Json) :=
  match v with
  | some x => [(k, x)]
  | none => []

def optStrJson : Option String → Json
  | some s => Json.str s
  | none => Json.null

/-- The per-row transformation of `GET /api/submissions` (main variant):
parse the `content` text and project the frontend fields.  `none` when
`JSON.parse(row.content)` throws. -/
def transformSub (row : SubRow) : Option Json :=
  (jsonParse row.content).map fun j =>
    Json.obj
      ([("id", Json.num (toString row.id)),
        ("studentName", Json.str row.student_name),
        ("type", Json.str row.work_type),
        ("title", jsOr (objGet j "title") (Json.str "Untitled")),
        ("description", jsOr (objGet j "description") (Json.str "")),
        ("data", jsOr (objGet j "data") (Json.obj [])),
        ("submittedAt", Json.str row.created_at)] ++
       optPair "studentId" (objGet j "studentId") ++
       optPair "studentEmail" (objGet j "studentEmail"))

/-- The per-row transformation of `GET /api/rooms`:
`JSON.parse(row.amenities || '[]')` plus field renames.  `none` when the
stored amenities text fails to parse. -/
def transformRoom (r : RoomRow) : Option Json :=
  (jsonParse (if r.amenities == "" then "[]" else r.amenities)).map fun aj =>
    Json.obj
      [("id", Json.num (toString r.id)),
       ("number", Json.str r.number),
       ("type", Json.str r.type),
       ("capacity", Json.num (toString r.capacity)),
       ("price", Json.num (toString r.price)),
       ("amenities", aj),
       ("status", optStrJson r.status),
       ("createdAt", Json.str r.created_at)]

/-- A raw `submissions` row as `res.json` serializes it (variant 1's
`GET`/`POST` return rows with their column names, `content` untouched). -/
def subRowJson (row : SubRow) : Json :=
  Json.obj
    [("id", Json.num (toString row.id)),
     ("student_name", Json.str row.student_name),
     ("work_type", Json.str row.work_type),
     ("content", Json.str row.content),
     ("created_at", Json.str row.created_at)]

/-! ## The endpoint handlers -/

/-- Handler of `GET /api/submissions` (main variant, `src/server.js:426-451`): select
newest-first, transform each row, and answer with the **bare array**
`res.json(submissions)`.  A row whose `content` is not valid JSON makes the
map throw (`crash`). -/
def getSubmissions (s : Store) : Outcome :=
  match (selectSubmissions s).mapM transformSub with
  | some objs => Outcome.res ⟨200, Json.arr objs⟩
  | none => Outcome.crash

/-- Handler of `GET /api/submissions` (variant 1, `src/server.js:65-78`): the rows,
untransformed, wrapped in a `{ success, data, count }` envelope. -/
def getSubmissionsV1 (s : Store) : Outcome :=
  let rows := selectSubmissions s
  Outcome.res ⟨200, Json.obj
    [("success", Json.bool true),
     ("data", Json.arr (rows.map subRowJson)),
     ("count", Json.num (toString rows.length))]⟩

/-- Handler of `GET /api/rooms` (`src/server.js:510-535`): select by number ascending,
parse each row's amenities, and answer with the bare array
`res.json(rooms)`. -/
def getRooms (s : Store) : Outcome :=
  match (selectRooms s).mapM transformRoom with
  | some objs => Outcome.res ⟨200, Json.arr objs⟩
  | none => Outcome.crash

/-- Handler of `POST /api/submissions` (main variant, `src/server.js:454-507`):
presence validation, work-type validation, `INSERT`, then the response is
built **from the request** (`content: JSON.parse(content)`,
`submittedAt: new Date().toISOString()`).  When `content` is not valid
JSON the row is already inserted and the callback throws. -/
def createSubmission (s : Store) (studentName workType content : Option String)
    (now : DateTime) : Store × Outcome :=
  if !(truthyS studentName && truthyS workType && truthyS content) then
    (s, Outcome.res (mkErr 400 missingSubMsg))
  else
    let name := studentName.getD ""
    let wt := workType.getD ""
    let c := content.getD ""
    if !(validWorkTypes.contains wt) then
      (s, Outcome.res (mkErr 400 (invalidTypeMsg wt)))
    else
      let row : SubRow := ⟨s.subNextId, name, wt, c, sqliteFormat now⟩
      let s₂ : Store :=
        { s with submissions := s.submissions ++ [row], subNextId := s.subNextId + 1 }
      match jsonParse c with
      | some j =>
        (s₂, Outcome.res ⟨200, Json.obj
          [("success", Json.bool true),
           ("data", Json.obj
             [("id", Json.num (toString row.id)),
              ("studentName", Json.str name),
              ("workType", Json.str wt),
              ("content", j),
              ("submittedAt", Json.str (isoFormat now))]),
           ("message", Json.str "Submission saved successfully")]⟩)
      | none => (s₂, Outcome.crash)

/-- Handler of `POST /api/submissions` (variant 1, `src/server.js:81-159`): same
validation but the missing-field error carries a `received` breakdown, and
on success the saved row is re-selected and returned verbatim with
status 201. -/
def createSubmissionV1 (s : Store) (studentName workType content : Option String)
    (now : DateTime) : Store × Outcome :=
  if !(truthyS studentName && truthyS workType && truthyS content) then
    (s, Outcome.res ⟨400, Json.obj
      [("success", Json.bool false),
       ("error", Json.str missingSubMsg),
       ("received", Json.obj
         [("studentName", Json.bool (truthyS studentName)),
          ("workType", Json.bool (truthyS workType)),
          ("content", Json.bool (truthyS content))])]⟩)
  else
    let name := studentName.getD ""
    let wt := workType.getD ""
    let c := content.getD ""
    if !(validWorkTypes.contains wt) then
      (s, Outcome.res (mkErr 400 (invalidTypeMsg wt)))
    else
      let row : SubRow := ⟨s.subNextId, name, wt, c, sqliteFormat now⟩
      let s₂ : Store :=
        { s with submissions := s.submissions ++ [row], subNextId := s.subNextId + 1 }
      (s₂, Outcome.res ⟨201, Json.obj
        [("success", Json.bool true), ("data", subRowJson row)]⟩)

/-- Handler of `POST /api/rooms` (`src/server.js:537-583`): presence validation, then
`INSERT`.  A duplicate `number` violates the `UNIQUE` constraint: the
insert fails, the store is unchanged, and the error surfaces as a 500
database error.  On success the response is built from the request plus the
assigned id. -/
def createRoom (s : Store) (number ty : Option String) (capacity price : Option Int)
    (amenities : Option (List String)) (status : Option String)
    (now : DateTime) : Store × Outcome :=
  if !(truthyS number && truthyS ty && truthyI capacity && truthyI price) then
    (s, Outcome.res (mkErr 400 missingRoomMsg))
  else
    let n := number.getD ""
    let t := ty.getD ""
    let c := capacity.getD 0
    let p := price.getD 0
    if s.rooms.any (fun r => r.number == n) then
      (s, Outcome.res (mkErr 500 (dbErr uniqueNumberMsg)))
    else
      let row : RoomRow :=
        ⟨s.roomNextId, n, t, c, p, encodeAmenities (amenities.getD []),
         some (jsStrOr status "available"), sqliteFormat now⟩
      ({ s with rooms := s.rooms ++ [row], roomNextId := s.roomNextId + 1 },
       Outcome.res ⟨200, Json.obj
         [("success", Json.bool true),
          ("data", Json.obj
            [("id", Json.num (toString row.id)),
             ("number", Json.str n),
             ("type", Json.str t),
             ("capacity", Json.num (toString c)),
             ("price", Json.num (toString p)),
             ("amenities", Json.arr ((amenities.getD []).map Json.str)),
             ("status", Json.str (jsStrOr status "available")),
             ("createdAt", Json.str (isoFormat now))]),
          ("message", Json.str "Room created successfully")]⟩)

/-- Handler of `PUT /api/rooms/:id` (`src/server.js:585-619`): no validation; the
`UPDATE` matches zero rows for an unknown id (`this.changes === 0` → 404,
nothing mutated).  When the row exists, the bound values must satisfy the
table's NOT NULL and UNIQUE constraints or the update fails as a 500
database error with the store unchanged; otherwise all six columns are
replaced in place (`status` is bound as given, without a default). -/
def updateRoom (s : Store) (roomId : Nat) (number ty : Option String)
    (capacity price : Option Int) (amenities : Option (List String))
    (status : Option String) : Store × Outcome :=
  if s.rooms.all (fun r => !(r.id == roomId)) then
    (s, Outcome.res (mkErr 404 roomNotFoundMsg))
  else
    match number, ty, capacity, price with
    | none, _, _, _ => (s, Outcome.res (mkErr 500 (dbErr (notNullMsg "number"))))
    | _, none, _, _ => (s, Outcome.res (mkErr 500 (dbErr (notNullMsg "type"))))
    | _, _, none, _ => (s, Outcome.res (mkErr 500 (dbErr (notNullMsg "capacity"))))
    | _, _, _, none => (s, Outcome.res (mkErr 500 (dbErr (notNullMsg "price"))))
    | some n, some t, some c, some p =>
      if s.rooms.any (fun r => !(r.id == roomId) && r.number == n) then
        (s, Outcome.res (mkErr 500 (dbErr uniqueNumberMsg)))
      else
        ({ s with rooms := s.rooms.map fun r =>
            if r.id == roomId then
              { r with number := n, type := t, capacity := c, price := p,
                       amenities := encodeAmenities (amenities.getD []),
                       status := status }
            else r },
         Outcome.res ⟨200, Json.obj
           [("success", Json.bool true),
            ("message", Json.str "Room updated successfully")]⟩)

/-- Handler of `DELETE /api/rooms/:id` (`src/server.js:621-650`): 404 when no row has
the id (store untouched), otherwise the matching row is removed.  The
autoincrement counter is untouched, so the id is never reused. -/
def deleteRoom (s : Store) (roomId : Nat) : Store × Outcome :=
  if s.rooms.all (fun r => !(r.id == roomId)) then
    (s, Outcome.res (mkErr 404 roomNotFoundMsg))
  else
    ({ s with rooms := s.rooms.filter fun r => !(r.id == roomId) },
     Outcome.res ⟨200, Json.obj
       [("success", Json.bool true),
        ("message", Json.str "Room deleted successfully")]⟩)

/-! ## Observations on responses (used to state the claims) -/

def isBoolJ : Json → Bool
  | Json.bool _ => true
  | _ => false

def isStrJ : Json → Bool
  | Json.str _ => true
  | _ => false

def isArrJ : Json → Bool
  | Json.arr _ => true
  | _ => false

/-- Does the body have a member `k` whose value satisfies `p`? -/
def hasKey (b : Json) (k : String) (p : Json → Bool) : Bool :=
  match b with
  | Json.obj kvs => kvs.any fun kv => kv.1 == k && p kv.2
  | _ => false

/-- The response body is an envelope with a `success` boolean. -/
def envelopeOk (b : Json) : Bool :=
  hasKey b "success" isBoolJ

/-- Error responses (status ≥ 400) carry a text `error` field. -/
def errFieldOk (r : HttpResponse) : Bool :=
  r.status < 400 || hasKey r.body "error" isStrJ

/-- An endpoint whose sent responses are all `success`-envelopes with an
`error` text on errors (a crash sends nothing). -/
def outcomeEnvOk (o : Outcome) : Bool :=
  match o with
  | Outcome.crash => true
  | Outcome.res r => envelopeOk r.body && errFieldOk r

/-- A list endpoint of the main variant: every sent success response is a
bare JSON array (no envelope). -/
def outcomeBareArr (o : Outcome) : Bool :=
  match o with
  | Outcome.crash => true
  | Outcome.res r => isArrJ r.body && decide (r.status = 200)

/-- Does `s` start with `pat`? -/
def startsWithSeg : List Char → List Char → Bool
  | [], _ => true
  | _ :: _, [] => false
  | a :: as, b :: bs => a == b && startsWithSeg as bs

/-- Does the text contain `pat` as a contiguous segment?  Used to ask
whether an error message mentions a given field name or enum value. -/
def hasSeg (pat : List Char) : List Char → Bool
  | [] => startsWithSeg pat []
  | c :: rest => startsWithSeg pat (c :: rest) || hasSeg pat rest

/-- The JSON body of a sent response (`none` for a crash). -/
def bodyOf (o : Outcome) : Option Json :=
  match o with
  | Outcome.res r => some r.body
  | Outcome.crash => none

/-- Reads `data.submittedAt` out of a creation response. -/
def respSubmittedAt (o : Outcome) : Option Json :=
  match o with
  | Outcome.res r => (objGet r.body "data").bind fun d => objGet d "submittedAt"
  | Outcome.crash => none

/-- The `Room.number`-uniqueness invariant on a store. -/
def roomNumbersUnique (s : Store) : Prop :=
  (s.rooms.map RoomRow.number).Nodup

/-- A concrete wall-clock instant used to instantiate witnesses. -/
def sampleTime : DateTime := ⟨2025, 1, 2, 3, 4, 5, 6⟩

/-! ## Lemmas about the `ORDER BY` embedding -/

theorem insertSorted_perm (before : α → α → Bool) (a : α) :
    ∀ l : List α, (insertSorted before a l).Perm (a :: l) := by
  intro l
  induction l with
  | nil => simp [insertSorted]
  | cons b bs ih =>
    by_cases h : before b a = true
    · simp only [insertSorted, h, if_true]
      exact (ih.cons b).trans (List.Perm.swap a b bs)
    · have hF : before b a = false := by simpa using h
      simp [insertSorted, hF]

theorem sortBy_perm (before : α → α → Bool) :
    ∀ l : List α, (sortBy before l).Perm l := by
  intro l
  induction l with
  | nil => simp [sortBy]
  | cons x xs ih =>
    exact (insertSorted_perm before x (sortBy before xs)).trans (ih.cons x)

theorem pairwise_insertSorted {R : α → α → Prop} (before : α → α → Bool)
    (htrans : ∀ x y z : α, R x y → R y z → R x z)
    (h1 : ∀ x y, before x y = true → R x y)
    (h2 : ∀ x y, before x y = false → R y x) (a : α) :
    ∀ l : List α, l.Pairwise R → (insertSorted before a l).Pairwise R := by
  intro l
  induction l with
  | nil => intro _; simp [insertSorted]
  | cons b bs ih =>
    intro hp
    rw [List.pairwise_cons] at hp
    obtain ⟨hb, hbs⟩ := hp
    by_cases h : before b a = true
    · simp only [insertSorted, h, if_true]
      rw [List.pairwise_cons]
      refine ⟨?_, ih hbs⟩
      intro x hx
      rcases List.mem_cons.1 (((insertSorted_perm before a bs).mem_iff).1 hx) with hxa | hxm
      · exact hxa ▸ h1 b a h
      · exact hb x hxm
    · have hF : before b a = false := by simpa using h
      simp only [insertSorted, hF, Bool.false_eq_true, if_false]
      rw [List.pairwise_cons]
      refine ⟨?_, List.pairwise_cons.2 ⟨hb, hbs⟩⟩
      intro x hx
      rcases List.mem_cons.1 hx with hxb | hxm
      · exact hxb ▸ h2 b a hF
      · exact htrans a b x (h2 b a hF) (hb x hxm)

theorem sortBy_pairwise {R : α → α → Prop} (before : α → α → Bool)
    (htrans : ∀ x y z : α, R x y → R y z → R x z)
    (h1 : ∀ x y, before x y = true → R x y)
    (h2 : ∀ x y, before x y = false → R y x) :
    ∀ l : List α, (sortBy before l).Pairwise R := by
  intro l
  induction l with
  | nil => simp [sortBy]
  | cons x xs ih => exact pairwise_insertSorted before htrans h1 h2 x _ ih

theorem selectRooms_perm (s : Store) : (selectRooms s).Perm s.rooms :=
  sortBy_perm _ s.rooms

theorem selectRooms_sorted (s : Store) :
    (selectRooms s).Pairwise (fun a b => a.number.data ≤ b.number.data) := by
  refine sortBy_pairwise _
    (fun x y z (h₁ : x.number.data ≤ y.number.data)
        (h₂ : y.number.data ≤ z.number.data) => le_trans h₁ h₂) ?_ ?_ s.rooms
  · intro x y h
    exact le_of_lt (of_decide_eq_true h)
  · intro x y h
    exact le_of_not_lt (of_decide_eq_false h)

theorem selectSubmissions_perm (s : Store) :
    (selectSubmissions s).Perm s.submissions :=
  sortBy_perm _ s.submissions

/-! ## The `JSON.stringify` / `JSON.parse` round-trip on string arrays -/

theorem hexVal_hexDigit : ∀ d < 16, hexVal (hexDigit d) = some d := by decide

theorem skipWs_cons (c : Char) (cs : List Char) (h : isWsChar c = false) :
    skipWs (c :: cs) = c :: cs := by
  simp [skipWs, List.dropWhile, h]

theorem dropWhile_ws_cons (c : Char) (cs : List Char) (h : isWsChar c = false) :
    List.dropWhile isWsChar (c :: cs) = c :: cs := by
  simp [List.dropWhile, h]

/-- Lemma A: the string-literal parser inverts per-character escaping. -/
theorem parseStrAux_esc :
    ∀ (xs rest : List Char),
      parseStrAux (xs.flatMap escChar ++ '"' :: rest) = some (xs, rest) := by
  intro xs
  induction xs with
  | nil => intro rest; rw [parseStrAux.eq_def]; simp
  | cons c cs ih =>
    intro rest
    rw [List.flatMap_cons, List.append_assoc]
    by_cases h1 : c = '"'
    · subst h1
      simp only [escChar, List.cons_append, List.nil_append]
      rw [parseStrAux.eq_def]; simp [unescapeChar, ih]
    · by_cases h2 : c = '\\'
      · subst h2
        simp only [escChar, List.cons_append, List.nil_append]
        rw [parseStrAux.eq_def]; simp [unescapeChar, ih]
      · by_cases h3 : c = Char.ofNat 8
        · subst h3
          simp only [escChar, List.cons_append, List.nil_append]
          rw [parseStrAux.eq_def]; simp [unescapeChar, ih]
        · by_cases h4 : c = '\t'
          · subst h4
            simp only [escChar, List.cons_append, List.nil_append]
            rw [parseStrAux.eq_def]; simp [unescapeChar, ih]
          · by_cases h5 : c = '\n'
            · subst h5
              simp only [escChar, List.cons_append, List.nil_append]
              rw [parseStrAux.eq_def]; simp [unescapeChar, ih]
            · by_cases h6 : c = Char.ofNat 12
              · subst h6
                simp only [escChar, List.cons_append, List.nil_append]
                rw [parseStrAux.eq_def]; simp [unescapeChar, ih]
              · by_cases h7 : c = '\r'
                · subst h7
                  simp only [escChar, List.cons_append, List.nil_append]
                  rw [parseStrAux.eq_def]; simp [unescapeChar, ih]
                · by_cases h8 : c.toNat < 32
                  · simp only [escChar, if_neg h1, if_neg h2, if_neg h3, if_neg h4,
                      if_neg h5, if_neg h6, if_neg h7, if_pos h8, List.cons_append,
                      List.nil_append]
                    have hd : hexVal (hexDigit (c.toNat / 16)) = some (c.toNat / 16) :=
                      hexVal_hexDigit _ (by omega)
                    have hm : hexVal (hexDigit (c.toNat % 16)) = some (c.toNat % 16) :=
                      hexVal_hexDigit _ (by omega)
                    rw [parseStrAux.eq_def]
                    simp only [show hexVal '0' = some 0 from rfl, hd, hm, ih]
                    have hv : c.toNat / 16 * 16 + c.toNat % 16 = c.toNat := by omega
                    simp [hv, Char.ofNat_toNat]
                  · simp only [escChar, if_neg h1, if_neg h2, if_neg h3, if_neg h4,
                      if_neg h5, if_neg h6, if_neg h7, if_neg h8, List.cons_append,
                      List.nil_append]
                    rw [parseStrAux.eq_def]
                    simp [h1, h2, h8, ih]

/-- The serialization of a nonempty list starts with the opening quote of
its first element. -/
theorem encItemsAux_cons_head (t : String) (ts : List String) :
    ∃ us, encItemsAux (t :: ts) = '"' :: us := by
  cases ts with
  | nil => exact ⟨_, rfl⟩
  | cons v vs => exact ⟨_, rfl⟩

/-- Lemma B: the element loop inverts the comma-joined serialization, for
any fuel at least one more than the element count. -/
theorem parseItemsJ_enc :
    ∀ (l : List String) (f : Nat),
      parseItemsJ (l.length + f + 1) (encItemsAux l) = some (l.map Json.str, []) := by
  intro l
  induction l with
  | nil => intro f; simp [encItemsAux, parseItemsJ]
  | cons s ss ih =>
    intro f
    cases ss with
    | nil =>
      show parseItemsJ (1 + f + 1) (encStr s ++ [']']) = some ([Json.str s], [])
      simp only [encStr, List.cons_append, List.append_assoc, List.nil_append]
      have h1 : (1 + f + 1) = (f + 1) + 1 := by omega
      rw [h1]
      simp only [parseItemsJ, parseJson, skipWs]
      rw [dropWhile_ws_cons '"' _ (by decide)]
      simp only [if_pos rfl]
      rw [parseStrAux_esc s.data [']']]
      simp [List.dropWhile, isWsChar]
    | cons t ts =>
      show parseItemsJ ((t :: ts).length + 1 + f + 1)
          (encStr s ++ ',' :: encItemsAux (t :: ts)) = _
      simp only [encStr, List.cons_append, List.append_assoc, List.nil_append]
      have h1 : ((t :: ts).length + 1 + f + 1) = ((t :: ts).length + f + 1) + 1 := by
        omega
      rw [h1]
      simp only [parseItemsJ, parseJson, skipWs]
      rw [dropWhile_ws_cons '"' _ (by decide)]
      simp only [if_pos rfl]
      rw [parseStrAux_esc s.data (',' :: encItemsAux (t :: ts))]
      obtain ⟨us, hus⟩ := encItemsAux_cons_head t ts
      simp only [if_true, Option.map_some']
      rw [dropWhile_ws_cons ',' _ (by decide)]
      have ih2 := ih f
      rw [hus] at ih2 ⊢
      simp [dropWhile_ws_cons '"' us (by decide), ih2]
      have h2 : (t :: ts).length + f + 1 = (ts.length + 1 + f) + 1 := by
        simp [List.length_cons]
      rw [h2, parseItemsJ.eq_def] at ih2
      simpa [skipWs] using ih2

theorem length_encItemsAux : ∀ l : List String, l.length ≤ (encItemsAux l).length := by
  intro l
  induction l with
  | nil => simp [encItemsAux]
  | cons t ts ih =>
    cases ts with
    | nil => simp [encItemsAux, encStr]
    | cons v vs =>
      show (t :: v :: vs).length ≤ (encStr t ++ ',' :: encItemsAux (v :: vs)).length
      have h1 : 1 ≤ (encStr t).length := by simp [encStr]
      have h2 : (v :: vs).length ≤ (encItemsAux (v :: vs)).length := ih
      simp only [List.length_append, List.length_cons] at h2 ⊢
      omega

theorem skipWs_encItemsAux (l : List String) :
    skipWs (encItemsAux l) = encItemsAux l := by
  cases l with
  | nil => decide
  | cons t ts =>
    obtain ⟨us, hus⟩ := encItemsAux_cons_head t ts
    rw [hus]
    exact skipWs_cons _ _ (by decide)

/-- The round trip: parsing the serialized amenities array recovers exactly
the original ordered sequence of labels. -/
theorem jsonParse_encodeAmenities (l : List String) :
    jsonParse (encodeAmenities l) = some (Json.arr (l.map Json.str)) := by
  simp only [jsonParse]
  have hdata : (encodeAmenities l).data = '[' :: encItemsAux l := rfl
  have hlen : (encodeAmenities l).length = (encItemsAux l).length + 1 := by
    simp [encodeAmenities, String.length, hdata]
  rw [hdata, hlen, parseJson.eq_def]
  simp only [skipWs]
  rw [dropWhile_ws_cons '[' _ (by decide)]
  have hb := length_encItemsAux l
  have hf : (encItemsAux l).length + 1
      = l.length + ((encItemsAux l).length - l.length) + 1 := by omega
  have hskip := skipWs_encItemsAux l
  rw [skipWs] at hskip
  simp only [hskip, hf, parseItemsJ_enc l _]
  simp [skipWs]

/-! ## Helper lemmas about the room table -/

theorem keepFilter_of_ne (i : Nat) (l : List RoomRow) (h : ∀ r ∈ l, r.id ≠ i) :
    (l.filter fun r => !(r.id == i)) = l := by
  rw [List.filter_eq_self]
  intro a ha
  simpa using h a ha

theorem filter_length_remove (i : Nat) :
    ∀ l : List RoomRow, (l.map RoomRow.id).Nodup → ∀ r₀ ∈ l, r₀.id = i →
      (l.filter fun r => !(r.id == i)).length + 1 = l.length := by
  intro l
  induction l with
  | nil => intro _ r₀ h; exact absurd h (List.not_mem_nil r₀)
  | cons b bs ih =>
    intro hnd r₀ hr₀ hid
    rw [List.map_cons, List.nodup_cons] at hnd
    obtain ⟨hbnotin, hnd₂⟩ := hnd
    rcases List.mem_cons.1 hr₀ with rfl | hmem
    · have hall : ∀ r ∈ bs, r.id ≠ i := by
        intro r hr hcontra
        exact hbnotin (hid ▸ hcontra ▸ List.mem_map_of_mem RoomRow.id hr)
      have hfb : (!(r₀.id == i)) = false := by simp [hid]
      have hrw := keepFilter_of_ne i bs hall
      simp [List.filter_cons, hfb, hrw]
    · have hbne : b.id ≠ i := by
        intro hb
        exact hbnotin (hb ▸ hid ▸ List.mem_map_of_mem RoomRow.id hmem)
      have hfb : (!(b.id == i)) = true := by simp [hbne]
      have hlen := ih hnd₂ r₀ hmem hid
      simp [List.filter_cons, hfb]
      omega

/-- Replacing the number of the row `i` by a number used by no other row
keeps the column `number` duplicate-free. -/
theorem nodup_numbers_mapUpdate (i : Nat) (n : String) (upd : RoomRow → RoomRow)
    (hupd : ∀ r, (upd r).number = n) :
    ∀ l : List RoomRow, (l.map RoomRow.id).Nodup → (l.map RoomRow.number).Nodup →
      (∀ r ∈ l, r.id = i ∨ r.number ≠ n) →
      ((l.map fun r => if r.id == i then upd r else r).map RoomRow.number).Nodup := by
  intro l
  induction l with
  | nil => intro _ _ _; simp
  | cons b bs ih =>
    intro hndid hndnum hguard
    rw [List.map_cons, List.nodup_cons] at hndid hndnum
    obtain ⟨hbid, hndid₂⟩ := hndid
    obtain ⟨hbnum, hndnum₂⟩ := hndnum
    have hbs : ∀ r ∈ bs, r.id ≠ i ∨ True := fun r _ => Or.inr trivial
    by_cases hb : b.id = i
    · have hbeq : (b.id == i) = true := by simp [hb]
      have hnotin : ∀ r ∈ bs, r.id ≠ i := by
        intro r hr hcontra
        exact hbid (hb ▸ hcontra ▸ List.mem_map_of_mem RoomRow.id hr)
      have hsame : (bs.map fun r => if r.id == i then upd r else r) = bs := by
        have : ∀ r ∈ bs, (if r.id == i then upd r else r) = r := by
          intro r hr
          simp [hnotin r hr]
        rw [List.map_congr_left this]
        simp
      rw [List.map_cons, hsame]
      simp only [hbeq, if_true, List.map_cons, List.nodup_cons]
      refine ⟨?_, hndnum₂⟩
      rw [hupd b]
      intro hmem
      obtain ⟨r, hr, hrn⟩ := List.mem_map.1 hmem
      rcases hguard r (List.mem_cons_of_mem b hr) with hcase | hcase
      · exact hnotin r hr hcase
      · exact hcase hrn
    · have hbeq : (b.id == i) = false := by simp [hb]
      have hbn : b.number ≠ n := by
        rcases hguard b (List.mem_cons_self b bs) with hcase | hcase
        · exact absurd hcase hb
        · exact hcase
      rw [List.map_cons]
      simp only [hbeq, Bool.false_eq_true, if_false, List.map_cons, List.nodup_cons]
      constructor
      · intro hmem
        obtain ⟨r, hr, hrn⟩ := List.mem_map.1 hmem
        obtain ⟨r₀, hr₀, rfl⟩ := List.mem_map.1 hr
        by_cases hc : r₀.id = i
        · have : (if r₀.id == i then upd r₀ else r₀).number = n := by simp [hc, hupd]
          exact hbn (hrn ▸ this ▸ rfl)
        · have : (if r₀.id == i then upd r₀ else r₀).number = r₀.number := by
            simp [hc]
          rw [this] at hrn
          exact hbnum (hrn ▸ List.mem_map_of_mem RoomRow.number hr₀)
      · exact ih hndid₂ hndnum₂ fun r hr => hguard r (List.mem_cons_of_mem b hr)

/-! ## Reductions of `createSubmission` under valid input -/

theorem truthyS_of_ne (x : String) (h : x ≠ "") : truthyS (some x) = true := by
  simp [truthyS, h]

theorem contains_of_mem (wt : String) (h : wt ∈ validWorkTypes) :
    validWorkTypes.contains wt = true := by
  simpa [List.contains] using List.elem_iff.2 h

theorem mem_of_contains (wt : String) (h : validWorkTypes.contains wt = true) :
    wt ∈ validWorkTypes :=
  List.elem_iff.1 (by simpa [List.contains] using h)

/-- Under valid input, `createSubmission` inserts the new row (whatever the
response turns out to be). -/
theorem createSubmission_store (s : Store) (sn wt c : String) (now : DateTime)
    (hsn : sn ≠ "") (hwt : wt ∈ validWorkTypes) (hc : c ≠ "") :
    (createSubmission s (some sn) (some wt) (some c) now).1
      = { s with
            submissions :=
              s.submissions ++ [⟨s.subNextId, sn, wt, c, sqliteFormat now⟩],
            subNextId := s.subNextId + 1 } := by
  simp only [createSubmission, truthyS_of_ne sn hsn, truthyS_of_ne wt
    (by rintro rfl; simp [validWorkTypes] at hwt), truthyS_of_ne c hc,
    contains_of_mem wt hwt, Bool.and_self, Bool.not_true, Bool.false_eq_true,
    if_false, Option.getD_some]
  cases h : jsonParse c <;> simp [h]

/-! ## The claims -/

/-- C1: for every valid submission input (non-empty `studentName`, legal
`workType`, non-empty `content`), `createSubmission` appends exactly one new
row whose fields equal the input, the subsequent
`listSubmissions` (the `SELECT ... ORDER BY created_at DESC`) contains
exactly that one new record on top of the previous ones, and the new id is
strictly greater than the id of every record present before the create. -/
theorem C1_create_then_list (s : Store) (sn wt c : String) (now : DateTime)
    (hWF : WF s) (hsn : sn ≠ "") (hwt : wt ∈ validWorkTypes) (hc : c ≠ "") :
    (createSubmission s (some sn) (some wt) (some c) now).1.submissions
        = s.submissions ++ [⟨s.subNextId, sn, wt, c, sqliteFormat now⟩]
    ∧ (selectSubmissions (createSubmission s (some sn) (some wt) (some c) now).1).Perm
        (⟨s.subNextId, sn, wt, c, sqliteFormat now⟩ :: selectSubmissions s)
    ∧ (∀ r ∈ s.submissions, r.id < s.subNextId) := by
  have hstore := createSubmission_store s sn wt c now hsn hwt hc
  refine ⟨by rw [hstore], ?_, fun r hr => hWF.1 r hr⟩
  have p1 := selectSubmissions_perm (createSubmission s (some sn) (some wt) (some c) now).1
  rw [hstore] at p1
  have p2 : (s.submissions ++ [(⟨s.subNextId, sn, wt, c, sqliteFormat now⟩ : SubRow)]).Perm
      (⟨s.subNextId, sn, wt, c, sqliteFormat now⟩ :: s.submissions) :=
    List.perm_append_singleton _ _
  have p3 : ((⟨s.subNextId, sn, wt, c, sqliteFormat now⟩ : SubRow) :: s.submissions).Perm
      (⟨s.subNextId, sn, wt, c, sqliteFormat now⟩ :: selectSubmissions s) :=
    (selectSubmissions_perm s).symm.cons _
  rw [hstore]
  exact (p1.trans p2).trans p3

/-- Witness for C1 at a concrete input on the freshly seeded store. -/
theorem C1_witness :
    (WF (initStore sampleTime) ∧ "Jane" ≠ "" ∧ "report" ∈ validWorkTypes
      ∧ "{}" ≠ "")
    ∧ ((createSubmission (initStore sampleTime) (some "Jane") (some "report")
          (some "{}") sampleTime).1.submissions
        = (initStore sampleTime).submissions
            ++ [⟨1, "Jane", "report", "{}", sqliteFormat sampleTime⟩]
      ∧ (selectSubmissions (createSubmission (initStore sampleTime) (some "Jane")
            (some "report") (some "{}") sampleTime).1).Perm
          (⟨1, "Jane", "report", "{}", sqliteFormat sampleTime⟩
            :: selectSubmissions (initStore sampleTime))
      ∧ (∀ r ∈ (initStore sampleTime).submissions, r.id < 1)) :=
  ⟨⟨by decide, by decide, by decide, by decide⟩,
   C1_create_then_list (initStore sampleTime) "Jane" "report" "{}" sampleTime
     (by decide) (by decide) (by decide) (by decide)⟩

/-- C5: encoding an ordered sequence of amenity labels exactly as the room
create/update handlers do (`JSON.stringify`), and then decoding that text as
the room read does (`JSON.parse`), yields the original sequence, element for
element and in order — for every sequence, including the empty one. -/
theorem C5_amenities_roundtrip (l : List String) :
    jsonParse (encodeAmenities l) = some (Json.arr (l.map Json.str)) :=
  jsonParse_encodeAmenities l

/-- C10: a valid-looking submission whose `content` is not valid JSON is
nevertheless inserted — the submission count grows by one — and the handler
then throws while building the response (`JSON.parse(content)` runs after
the `INSERT`), so no response is ever sent: the operation is not atomic. -/
theorem C10_insert_then_crash (s : Store) (sn wt c : String) (now : DateTime)
    (hsn : sn ≠ "") (hwt : wt ∈ validWorkTypes) (hc : c ≠ "")
    (hbad : jsonParse c = none) :
    createSubmission s (some sn) (some wt) (some c) now
      = ({ s with
             submissions :=
               s.submissions ++ [⟨s.subNextId, sn, wt, c, sqliteFormat now⟩],
             subNextId := s.subNextId + 1 }, Outcome.crash)
    ∧ (createSubmission s (some sn) (some wt) (some c) now).1.submissions.length
        = s.submissions.length + 1 := by
  have h : createSubmission s (some sn) (some wt) (some c) now
      = ({ s with
             submissions :=
               s.submissions ++ [⟨s.subNextId, sn, wt, c, sqliteFormat now⟩],
             subNextId := s.subNextId + 1 }, Outcome.crash) := by
    simp only [createSubmission, truthyS_of_ne sn hsn, truthyS_of_ne wt
      (by rintro rfl; simp [validWorkTypes] at hwt), truthyS_of_ne c hc,
      contains_of_mem wt hwt, Bool.and_self, Bool.not_true, Bool.false_eq_true,
      if_false, Option.getD_some, hbad]
  exact ⟨h, by rw [h]; simp⟩

/-- Witness for C10: `content` is `"hello"`, which `JSON.parse` rejects. -/
theorem C10_witness :
    ("Jane" ≠ "" ∧ "report" ∈ validWorkTypes ∧ "hello" ≠ ""
      ∧ jsonParse "hello" = none)
    ∧ (createSubmission (initStore sampleTime) (some "Jane") (some "report")
          (some "hello") sampleTime
        = ({ (initStore sampleTime) with
             submissions := (initStore sampleTime).submissions
               ++ [⟨1, "Jane", "report", "hello", sqliteFormat sampleTime⟩],
             subNextId := 2 }, Outcome.crash)
      ∧ (createSubmission (initStore sampleTime) (some "Jane") (some "report")
            (some "hello") sampleTime).1.submissions.length
          = (initStore sampleTime).submissions.length + 1) :=
  ⟨⟨by decide, by decide, by decide, by rfl⟩,
   C10_insert_then_crash (initStore sampleTime) "Jane" "report" "hello" sampleTime
     (by decide) (by decide) (by decide) (by rfl)⟩

/-- C6: `listRooms` always returns all stored rooms ordered by the text
field `number` ascending (lexicographic); on a freshly initialized store it
returns exactly the five seeded sample rooms, numbers 101, 102, 201, 202,
301, in ascending order. -/
theorem C6_rooms_sorted_and_seeded :
    (∀ s : Store, (selectRooms s).Perm s.rooms
      ∧ (selectRooms s).Pairwise (fun a b => a.number.data ≤ b.number.data))
    ∧ (∀ t : DateTime, selectRooms (initStore t) = (initStore t).rooms
      ∧ (selectRooms (initStore t)).map RoomRow.number
          = ["101", "102", "201", "202", "301"]) := by
  constructor
  · exact fun s => ⟨selectRooms_perm s, selectRooms_sorted s⟩
  · intro t
    have h : selectRooms (initStore t) = (initStore t).rooms := by
      simp [selectRooms, initStore, sortBy, insertSorted]
      decide
    exact ⟨h, by rw [h]; rfl⟩

theorem deleteRoom_notfound (s : Store) (i : Nat)
    (h : s.rooms.all (fun r => !(r.id == i)) = true) :
    deleteRoom s i = (s, Outcome.res (mkErr 404 roomNotFoundMsg)) := by
  simp [deleteRoom, h]

/-- C3: `updateRoom` and `deleteRoom` on an id absent from the room table
answer 404 `Room not found` and leave the store untouched; on a present id,
`deleteRoom` removes exactly that one row, the subsequent `listRooms`
excludes it, and deleting the same id again answers 404. -/
theorem C3_update_delete_notfound (s : Store) (roomId : Nat)
    (number ty : Option String) (capacity price : Option Int)
    (amenities : Option (List String)) (status : Option String) (hWF : WF s) :
    ((∀ r ∈ s.rooms, r.id ≠ roomId) →
      updateRoom s roomId number ty capacity price amenities status
          = (s, Outcome.res (mkErr 404 roomNotFoundMsg))
        ∧ deleteRoom s roomId = (s, Outcome.res (mkErr 404 roomNotFoundMsg)))
    ∧ (∀ r₀ ∈ s.rooms, r₀.id = roomId →
        (deleteRoom s roomId).1.rooms.length + 1 = s.rooms.length
        ∧ (∀ r ∈ (deleteRoom s roomId).1.rooms, r.id ≠ roomId)
        ∧ (∀ r ∈ s.rooms, r.id ≠ roomId → r ∈ (deleteRoom s roomId).1.rooms)
        ∧ (∀ r ∈ selectRooms (deleteRoom s roomId).1, r.id ≠ roomId)
        ∧ deleteRoom (deleteRoom s roomId).1 roomId
            = ((deleteRoom s roomId).1, Outcome.res (mkErr 404 roomNotFoundMsg))) := by
  constructor
  · intro h
    have hall : s.rooms.all (fun r => !(r.id == roomId)) = true := by
      rw [List.all_eq_true]
      intro r hr
      simpa using h r hr
    exact ⟨by simp [updateRoom, hall], by simp [deleteRoom, hall]⟩
  · intro r₀ hr₀ hid
    have hallF : s.rooms.all (fun r => !(r.id == roomId)) = false := by
      cases hx : s.rooms.all (fun r => !(r.id == roomId)) with
      | true =>
        exfalso
        have := List.all_eq_true.1 hx r₀ hr₀
        simp [hid] at this
      | false => rfl
    have hdel : deleteRoom s roomId
        = ({ s with rooms := s.rooms.filter fun r => !(r.id == roomId) },
           Outcome.res ⟨200, Json.obj
             [("success", Json.bool true),
              ("message", Json.str "Room deleted successfully")]⟩) := by
      simp [deleteRoom, hallF]
    have hmem₂ : ∀ r ∈ (deleteRoom s roomId).1.rooms, r.id ≠ roomId := by
      rw [hdel]
      intro r hr
      have := (List.mem_filter.1 hr).2
      simpa using this
    refine ⟨?_, hmem₂, ?_, ?_, ?_⟩
    · rw [hdel]
      exact filter_length_remove roomId s.rooms hWF.2.2.2.1 r₀ hr₀ hid
    · intro r hr hne
      rw [hdel]
      exact List.mem_filter.2 ⟨hr, by simpa using hne⟩
    · intro r hr
      exact hmem₂ r ((selectRooms_perm (deleteRoom s roomId).1).mem_iff.1 hr)
    · have hall₂ : (deleteRoom s roomId).1.rooms.all (fun r => !(r.id == roomId))
          = true := by
        rw [List.all_eq_true]
        intro r hr
        simpa using hmem₂ r hr
      exact deleteRoom_notfound _ roomId hall₂

/-- Witness for C3: id 999 is absent from the seeded store; id 3 is present
and is deleted exactly once. -/
theorem C3_witness :
    (WF (initStore sampleTime)
      ∧ (∀ r ∈ (initStore sampleTime).rooms, r.id ≠ 999)
      ∧ (⟨3, "201", "Deluxe", 3, 3500, encodeAmenities ["WiFi", "AC", "TV", "Mini Bar"],
          some "available", sqliteFormat sampleTime⟩ : RoomRow) ∈ (initStore sampleTime).rooms)
    ∧ (updateRoom (initStore sampleTime) 999 (some "9") (some "t") (some 1) (some 1)
          none none
        = (initStore sampleTime, Outcome.res (mkErr 404 roomNotFoundMsg))
      ∧ deleteRoom (initStore sampleTime) 999
        = (initStore sampleTime, Outcome.res (mkErr 404 roomNotFoundMsg)))
    ∧ ((deleteRoom (initStore sampleTime) 3).1.rooms.length + 1
        = (initStore sampleTime).rooms.length
      ∧ deleteRoom (deleteRoom (initStore sampleTime) 3).1 3
        = ((deleteRoom (initStore sampleTime) 3).1,
           Outcome.res (mkErr 404 roomNotFoundMsg))) :=
  ⟨⟨by decide, by decide, by decide⟩,
   (C3_update_delete_notfound (initStore sampleTime) 999 (some "9") (some "t")
      (some 1) (some 1) none none (by decide)).1 (by decide),
   ⟨((C3_update_delete_notfound (initStore sampleTime) 3 none none none none none
        none (by decide)).2
      ⟨3, "201", "Deluxe", 3, 3500, encodeAmenities ["WiFi", "AC", "TV", "Mini Bar"],
        some "available", sqliteFormat sampleTime⟩ (by decide) rfl).1,
    (((((C3_update_delete_notfound (initStore sampleTime) 3 none none none none none
        none (by decide)).2
      ⟨3, "201", "Deluxe", 3, 3500, encodeAmenities ["WiFi", "AC", "TV", "Mini Bar"],
        some "available", sqliteFormat sampleTime⟩ (by decide) rfl).2).2).2).2⟩⟩

/-! ## Preservation of room-number uniqueness by each operation -/

theorem createRoom_numbers (s : Store) (number ty : Option String)
    (capacity price : Option Int) (amenities : Option (List String))
    (status : Option String) (now : DateTime) (hWF : WF s) :
    roomNumbersUnique (createRoom s number ty capacity price amenities status now).1 := by
  unfold createRoom
  split
  · exact hWF.2.2.2.2
  · dsimp only
    split
    · exact hWF.2.2.2.2
    · next hnotany =>
      have hng : ∀ r ∈ s.rooms, r.number ≠ number.getD "" := by
        intro r hr hcontra
        exact hnotany (List.any_eq_true.2 ⟨r, hr, by simp [hcontra]⟩)
      unfold roomNumbersUnique
      simp only [List.map_append, List.map_cons, List.map_nil]
      rw [List.nodup_append]
      refine ⟨hWF.2.2.2.2, List.nodup_singleton _, ?_⟩
      intro a ha hb
      simp only [List.mem_singleton] at hb
      subst hb
      obtain ⟨r, hr, hrn⟩ := List.mem_map.1 ha
      exact hng r hr hrn

theorem updateRoom_numbers (s : Store) (roomId : Nat) (number ty : Option String)
    (capacity price : Option Int) (amenities : Option (List String))
    (status : Option String) (hWF : WF s) :
    roomNumbersUnique (updateRoom s roomId number ty capacity price amenities status).1 := by
  unfold updateRoom
  split
  · exact hWF.2.2.2.2
  · split
    · exact hWF.2.2.2.2
    · exact hWF.2.2.2.2
    · exact hWF.2.2.2.2
    · exact hWF.2.2.2.2
    · next n t c p =>
      split
      · exact hWF.2.2.2.2
      · next hnotany =>
        have hguard : ∀ r ∈ s.rooms, r.id = roomId ∨ r.number ≠ n := by
          intro r hr
          by_cases hcase : r.id = roomId
          · exact Or.inl hcase
          · refine Or.inr fun hcontra => ?_
            exact hnotany (List.any_eq_true.2 ⟨r, hr, by simp [hcase, hcontra]⟩)
        exact nodup_numbers_mapUpdate roomId n _ (fun r => rfl) s.rooms
          hWF.2.2.2.1 hWF.2.2.2.2 hguard

theorem deleteRoom_numbers (s : Store) (roomId : Nat) (hWF : WF s) :
    roomNumbersUnique (deleteRoom s roomId).1 := by
  unfold deleteRoom
  split
  · exact hWF.2.2.2.2
  · exact ((List.filter_sublist s.rooms).map RoomRow.number).nodup hWF.2.2.2.2

theorem createSubmission_rooms (s : Store) (sn wt ct : Option String)
    (now : DateTime) : (createSubmission s sn wt ct now).1.rooms = s.rooms := by
  unfold createSubmission
  split
  · rfl
  · dsimp only
    split
    · rfl
    · split <;> rfl

theorem createSubmissionV1_rooms (s : Store) (sn wt ct : Option String)
    (now : DateTime) : (createSubmissionV1 s sn wt ct now).1.rooms = s.rooms := by
  unfold createSubmissionV1
  split
  · rfl
  · dsimp only
    split <;> rfl

/-- C2 counterexample: on the seeded store, a creation input whose `number`
`"101"` duplicates an existing room but whose `type` is absent fails with
the 400 missing-fields error, not with the `UNIQUE`-constraint
(`DuplicateKey`) database error the claim prescribes for every
duplicate-number input.  (The store is still unchanged.) -/
theorem C2_counterexample :
    ((⟨1, "101", "Standard", 2, 2500, encodeAmenities ["WiFi", "AC", "TV"],
        some "available", sqliteFormat sampleTime⟩ : RoomRow)
      ∈ (initStore sampleTime).rooms)
    ∧ createRoom (initStore sampleTime) (some "101") none (some 2) (some 2500)
        none none sampleTime
      = (initStore sampleTime, Outcome.res (mkErr 400 missingRoomMsg))
    ∧ missingRoomMsg ≠ dbErr uniqueNumberMsg :=
  ⟨by decide, rfl, by decide⟩

/-- C2 (amended): a room creation passing presence validation whose `number`
already exists fails with the `UNIQUE`-constraint 500 database error and
leaves the store unchanged; a creation failing presence validation fails
with 400 and also leaves the store unchanged; and room-number uniqueness is
preserved by every operation. -/
theorem C2_room_number_unique (s : Store) (number ty : Option String)
    (capacity price : Option Int) (amenities : Option (List String))
    (status : Option String) (now : DateTime) (roomId : Nat) (hWF : WF s) :
    (∀ n : String, number = some n → n ≠ "" →
      (∃ r ∈ s.rooms, r.number = n) →
      truthyS ty = true → truthyI capacity = true → truthyI price = true →
      createRoom s number ty capacity price amenities status now
        = (s, Outcome.res (mkErr 500 (dbErr uniqueNumberMsg))))
    ∧ ((truthyS number && truthyS ty && truthyI capacity && truthyI price) = false →
      createRoom s number ty capacity price amenities status now
        = (s, Outcome.res (mkErr 400 missingRoomMsg)))
    ∧ roomNumbersUnique (createRoom s number ty capacity price amenities status now).1
    ∧ roomNumbersUnique (updateRoom s roomId number ty capacity price amenities status).1
    ∧ roomNumbersUnique (deleteRoom s roomId).1
    ∧ (∀ sn wt ct : Option String,
        roomNumbersUnique (createSubmission s sn wt ct now).1
        ∧ roomNumbersUnique (createSubmissionV1 s sn wt ct now).1) := by
  refine ⟨?_, ?_, createRoom_numbers s number ty capacity price amenities status now hWF,
    updateRoom_numbers s roomId number ty capacity price amenities status hWF,
    deleteRoom_numbers s roomId hWF, ?_⟩
  · rintro n rfl hn hdup hty hcap hpr
    obtain ⟨r, hr, hrn⟩ := hdup
    have hany : (s.rooms.any fun r => r.number == n) = true :=
      List.any_eq_true.2 ⟨r, hr, by simp [hrn]⟩
    simp only [createRoom, truthyS_of_ne n hn, hty, hcap, hpr, Bool.and_self,
      Bool.not_true, Bool.false_eq_true, if_false, Option.getD_some, hany, if_true]
  · intro hfail
    simp [createRoom, hfail]
  · intro sn wt ct
    constructor
    · unfold roomNumbersUnique
      rw [createSubmission_rooms]
      exact hWF.2.2.2.2
    · unfold roomNumbersUnique
      rw [createSubmissionV1_rooms]
      exact hWF.2.2.2.2

/-- Witness for C2 (amended) on the seeded store: number `"101"` duplicates
room 1 when all required fields are present. -/
theorem C2_witness :
    (WF (initStore sampleTime)
      ∧ some "101" = some "101" ∧ "101" ≠ ""
      ∧ (∃ r ∈ (initStore sampleTime).rooms, r.number = "101")
      ∧ truthyS (some "Standard") = true ∧ truthyI (some 2) = true
      ∧ truthyI (some 2500) = true)
    ∧ createRoom (initStore sampleTime) (some "101") (some "Standard") (some 2)
        (some 2500) none none sampleTime
      = (initStore sampleTime, Outcome.res (mkErr 500 (dbErr uniqueNumberMsg))) :=
  ⟨⟨by decide, rfl, by decide, ⟨⟨1, "101", "Standard", 2, 2500,
      encodeAmenities ["WiFi", "AC", "TV"], some "available",
      sqliteFormat sampleTime⟩, by decide, rfl⟩, by decide, by decide, by decide⟩,
   (C2_room_number_unique (initStore sampleTime) (some "101") (some "Standard")
      (some 2) (some 2500) none none sampleTime 0 (by decide)).1 "101" rfl
     (by decide)
     ⟨⟨1, "101", "Standard", 2, 2500, encodeAmenities ["WiFi", "AC", "TV"],
        some "available", sqliteFormat sampleTime⟩, by decide, rfl⟩
     (by decide) (by decide) (by decide)⟩

/-- C4 counterexample: the empty `workType` is not in the legal enumeration,
yet with the other fields present the operation fails with the fixed 400
missing-fields message — not the `InvalidEnum` message — and that message
does not enumerate the legal values (it does not even contain
`financial_report`). -/
theorem C4_counterexample :
    ("" ∉ validWorkTypes)
    ∧ createSubmission (initStore sampleTime) (some "Jane") (some "") (some "x")
        sampleTime = (initStore sampleTime, Outcome.res (mkErr 400 missingSubMsg))
    ∧ missingSubMsg ≠ invalidTypeMsg ""
    ∧ hasSeg "financial_report".data missingSubMsg.data = false :=
  ⟨by decide, rfl, by decide, by decide⟩

/-- C4 (amended): when the three fields are present and non-empty and the
`workType` is outside the enumeration, the operation fails with 400 before
any store write — the submission count is unchanged — and the error message
enumerates exactly the three legal values; an input failing the presence
check instead gets the fixed missing-fields error. -/
theorem C4_invalid_worktype (s : Store) (sn wt c : String) (now : DateTime)
    (hsn : sn ≠ "") (hc : c ≠ "") (hwtne : wt ≠ "") (hwt : wt ∉ validWorkTypes) :
    createSubmission s (some sn) (some wt) (some c) now
        = (s, Outcome.res (mkErr 400 (invalidTypeMsg wt)))
    ∧ invalidTypeMsg wt
        = "Invalid work type: " ++ wt
            ++ ". Valid types: " ++ "room_request, report, financial_report"
    ∧ (createSubmission s (some sn) (some wt) (some c) now).1.submissions.length
        = s.submissions.length := by
  have hcontains : validWorkTypes.contains wt = false := by
    cases hx : validWorkTypes.contains wt
    · rfl
    · exfalso
      exact hwt (by simpa [List.contains, List.elem_iff] using hx)
  have h1 : createSubmission s (some sn) (some wt) (some c) now
      = (s, Outcome.res (mkErr 400 (invalidTypeMsg wt))) := by
    simp only [createSubmission, truthyS_of_ne sn hsn, truthyS_of_ne wt hwtne,
      truthyS_of_ne c hc, Bool.and_self, Bool.not_true, Bool.false_eq_true,
      if_false, Option.getD_some, hcontains, Bool.not_false, if_true]
  exact ⟨h1, rfl, by rw [h1]⟩

/-- Witness for C4 (amended) with `workType` `"bogus"`. -/
theorem C4_witness :
    ("Jane" ≠ "" ∧ "x" ≠ "" ∧ "bogus" ≠ "" ∧ "bogus" ∉ validWorkTypes)
    ∧ (createSubmission (initStore sampleTime) (some "Jane") (some "bogus")
          (some "x") sampleTime
        = (initStore sampleTime, Outcome.res (mkErr 400 (invalidTypeMsg "bogus")))
      ∧ invalidTypeMsg "bogus"
        = "Invalid work type: " ++ "bogus"
            ++ ". Valid types: " ++ "room_request, report, financial_report"
      ∧ (createSubmission (initStore sampleTime) (some "Jane") (some "bogus")
            (some "x") sampleTime).1.submissions.length
          = (initStore sampleTime).submissions.length) :=
  ⟨⟨by decide, by decide, by decide, by decide⟩,
   C4_invalid_worktype (initStore sampleTime) "Jane" "bogus" "x" sampleTime
     (by decide) (by decide) (by decide) (by decide)⟩

/-- C7 counterexample: on a concrete valid input, the stored record's
`created_at` is the SQLite timestamp text, while the response's
`data.submittedAt` is the ISO text of the response-time clock — the two
differ, so the response is not the record as it exists in the store. -/
theorem C7_counterexample :
    (createSubmission (initStore sampleTime) (some "Jane") (some "report")
        (some "{}") sampleTime).1.submissions.map SubRow.created_at
      = [sqliteFormat sampleTime]
    ∧ respSubmittedAt (createSubmission (initStore sampleTime) (some "Jane")
        (some "report") (some "{}") sampleTime).2
      = some (Json.str (isoFormat sampleTime))
    ∧ isoFormat sampleTime ≠ sqliteFormat sampleTime :=
  ⟨rfl, rfl, by decide⟩

/-- C7 (amended): on well-typed input the main variant's `createSubmission`
succeeds, but its response is reconstructed from the request — the assigned
id together with the request's fields, the parsed request `content`, and a
`submittedAt` stamped from the response-time clock in ISO format (the
stored row instead carries the SQLite-format `created_at`); variant 1
re-selects the saved row and returns the stored record itself. -/
theorem C7_response_reconstructed (s : Store) (sn wt c : String) (now : DateTime)
    (j : Json) (hsn : sn ≠ "") (hwt : wt ∈ validWorkTypes) (hc : c ≠ "")
    (hj : jsonParse c = some j) :
    createSubmission s (some sn) (some wt) (some c) now
      = ({ s with
            submissions :=
              s.submissions ++ [⟨s.subNextId, sn, wt, c, sqliteFormat now⟩],
            subNextId := s.subNextId + 1 },
         Outcome.res ⟨200, Json.obj
           [("success", Json.bool true),
            ("data", Json.obj
              [("id", Json.num (toString s.subNextId)),
               ("studentName", Json.str sn),
               ("workType", Json.str wt),
               ("content", j),
               ("submittedAt", Json.str (isoFormat now))]),
            ("message", Json.str "Submission saved successfully")]⟩)
    ∧ createSubmissionV1 s (some sn) (some wt) (some c) now
      = ({ s with
            submissions :=
              s.submissions ++ [⟨s.subNextId, sn, wt, c, sqliteFormat now⟩],
            subNextId := s.subNextId + 1 },
         Outcome.res ⟨201, Json.obj
           [("success", Json.bool true),
            ("data", subRowJson ⟨s.subNextId, sn, wt, c, sqliteFormat now⟩)]⟩) := by
  have hwtne : wt ≠ "" := by rintro rfl; simp [validWorkTypes] at hwt
  constructor
  · simp only [createSubmission, truthyS_of_ne sn hsn, truthyS_of_ne wt hwtne,
      truthyS_of_ne c hc, contains_of_mem wt hwt, Bool.and_self, Bool.not_true,
      Bool.false_eq_true, if_false, Option.getD_some, hj]
  · simp only [createSubmissionV1, truthyS_of_ne sn hsn, truthyS_of_ne wt hwtne,
      truthyS_of_ne c hc, contains_of_mem wt hwt, Bool.and_self, Bool.not_true,
      Bool.false_eq_true, if_false, Option.getD_some]

/-- Witness for C7 (amended) at a concrete input. -/
theorem C7_witness :
    ("Jane" ≠ "" ∧ "report" ∈ validWorkTypes ∧ "{}" ≠ ""
      ∧ jsonParse "{}" = some (Json.obj []))
    ∧ (createSubmission (initStore sampleTime) (some "Jane") (some "report")
          (some "{}") sampleTime
        = ({ (initStore sampleTime) with
             submissions := (initStore sampleTime).submissions
               ++ [⟨1, "Jane", "report", "{}", sqliteFormat sampleTime⟩],
             subNextId := 2 },
           Outcome.res ⟨200, Json.obj
             [("success", Json.bool true),
              ("data", Json.obj
                [("id", Json.num (toString (1 : Nat))),
                 ("studentName", Json.str "Jane"),
                 ("workType", Json.str "report"),
                 ("content", Json.obj []),
                 ("submittedAt", Json.str (isoFormat sampleTime))]),
              ("message", Json.str "Submission saved successfully")]⟩)
      ∧ createSubmissionV1 (initStore sampleTime) (some "Jane") (some "report")
          (some "{}") sampleTime
        = ({ (initStore sampleTime) with
             submissions := (initStore sampleTime).submissions
               ++ [⟨1, "Jane", "report", "{}", sqliteFormat sampleTime⟩],
             subNextId := 2 },
           Outcome.res ⟨201, Json.obj
             [("success", Json.bool true),
              ("data", subRowJson ⟨1, "Jane", "report", "{}",
                sqliteFormat sampleTime⟩)]⟩)) :=
  ⟨⟨by decide, by decide, by decide, by rfl⟩,
   C7_response_reconstructed (initStore sampleTime) "Jane" "report" "{}" sampleTime
     (Json.obj []) (by decide) (by decide) (by decide) (by rfl)⟩

/-- C8 counterexample: with only `content` empty, the 400 error carries the
fixed message naming all three required fields — in particular it names
`studentName`, which was present — rather than naming exactly the absent
fields. -/
theorem C8_counterexample :
    truthyS (some "Jane") = true
    ∧ createSubmission (initStore sampleTime) (some "Jane") (some "report")
        (some "") sampleTime
      = (initStore sampleTime, Outcome.res (mkErr 400 missingSubMsg))
    ∧ hasSeg "studentName".data missingSubMsg.data = true :=
  ⟨by decide, rfl, by decide⟩

/-- C8 (amended): any submission input with an absent/empty field fails with
400 and the fixed error message naming all three required fields, and no
store write occurs; variant 1 additionally reports a `received` breakdown
with one boolean per field. -/
theorem C8_missing_fields (s : Store) (sn wt c : Option String) (now : DateTime)
    (h : (truthyS sn && truthyS wt && truthyS c) = false) :
    createSubmission s sn wt c now = (s, Outcome.res (mkErr 400 missingSubMsg))
    ∧ createSubmissionV1 s sn wt c now
      = (s, Outcome.res ⟨400, Json.obj
          [("success", Json.bool false),
           ("error", Json.str missingSubMsg),
           ("received", Json.obj
             [("studentName", Json.bool (truthyS sn)),
              ("workType", Json.bool (truthyS wt)),
              ("content", Json.bool (truthyS c))])]⟩) := by
  constructor
  · simp [createSubmission, h]
  · simp [createSubmissionV1, h]

/-- Witness for C8 (amended): `content` is the empty string. -/
theorem C8_witness :
    ((truthyS (some "Jane") && truthyS (some "report") && truthyS (some ""))
        = false)
    ∧ (createSubmission (initStore sampleTime) (some "Jane") (some "report")
          (some "") sampleTime
        = (initStore sampleTime, Outcome.res (mkErr 400 missingSubMsg))
      ∧ createSubmissionV1 (initStore sampleTime) (some "Jane") (some "report")
          (some "") sampleTime
        = (initStore sampleTime, Outcome.res ⟨400, Json.obj
            [("success", Json.bool false),
             ("error", Json.str missingSubMsg),
             ("received", Json.obj
               [("studentName", Json.bool (truthyS (some "Jane"))),
                ("workType", Json.bool (truthyS (some "report"))),
                ("content", Json.bool (truthyS (some "")))])]⟩)) :=
  ⟨by decide,
   C8_missing_fields (initStore sampleTime) (some "Jane") (some "report")
     (some "") sampleTime (by decide)⟩

/-- C9 counterexample: the success response of `GET /api/submissions` on the
fresh store is the bare array `[]` — it has no `success` boolean — and the
success response of `GET /api/rooms` likewise has an envelope-less array
body. -/
theorem C9_counterexample :
    getSubmissions (initStore sampleTime) = Outcome.res ⟨200, Json.arr []⟩
    ∧ envelopeOk (Json.arr []) = false
    ∧ (bodyOf (getRooms (initStore sampleTime))).map envelopeOk = some false :=
  ⟨rfl, by decide, by rfl⟩

/-- C9 (amended): every response of the creating/updating endpoints (and
every error response among them) is a `success`-boolean envelope with a
text `error` field on errors, and variant 1's `GET /api/submissions` is
too; but the success responses of the main `GET /api/submissions` and of
`GET /api/rooms` are bare JSON arrays with no envelope. -/
theorem C9_envelopes (s : Store) (sn wt ct number ty status : Option String)
    (capacity price : Option Int) (amenities : Option (List String))
    (roomId : Nat) (now : DateTime) :
    outcomeEnvOk (createSubmission s sn wt ct now).2 = true
    ∧ outcomeEnvOk (createSubmissionV1 s sn wt ct now).2 = true
    ∧ outcomeEnvOk (createRoom s number ty capacity price amenities status now).2 = true
    ∧ outcomeEnvOk (updateRoom s roomId number ty capacity price amenities status).2 = true
    ∧ outcomeEnvOk (deleteRoom s roomId).2 = true
    ∧ outcomeBareArr (getSubmissions s) = true
    ∧ outcomeBareArr (getRooms s) = true
    ∧ outcomeEnvOk (getSubmissionsV1 s) = true := by
  refine ⟨?_, ?_, ?_, ?_, ?_, ?_, ?_, ?_⟩
  · cases hA : (truthyS sn && truthyS wt && truthyS ct) with
    | false =>
      simp [createSubmission, hA, outcomeEnvOk, envelopeOk, errFieldOk, hasKey,
        isBoolJ, isStrJ, mkErr]
    | true =>
      cases hB : validWorkTypes.contains (wt.getD "") with
      | false =>
        have hB2 : wt.getD "" ∉ validWorkTypes := by simpa using hB
        simp [createSubmission, hA, hB2, outcomeEnvOk, envelopeOk, errFieldOk,
          hasKey, isBoolJ, isStrJ, mkErr]
      | true =>
        have hB2 : wt.getD "" ∈ validWorkTypes := by simpa using hB
        cases hj : jsonParse (ct.getD "") with
        | none =>
          simp [createSubmission, hA, hB2, hj, outcomeEnvOk]
        | some j =>
          simp [createSubmission, hA, hB2, hj, outcomeEnvOk, envelopeOk,
            errFieldOk, hasKey, isBoolJ, isStrJ]
  · cases hA : (truthyS sn && truthyS wt && truthyS ct) with
    | false =>
      simp [createSubmissionV1, hA, outcomeEnvOk, envelopeOk, errFieldOk,
        hasKey, isBoolJ, isStrJ]
    | true =>
      cases hB : validWorkTypes.contains (wt.getD "") with
      | false =>
        have hB2 : wt.getD "" ∉ validWorkTypes := by simpa using hB
        simp [createSubmissionV1, hA, hB2, outcomeEnvOk, envelopeOk, errFieldOk,
          hasKey, isBoolJ, isStrJ, mkErr]
      | true =>
        have hB2 : wt.getD "" ∈ validWorkTypes := by simpa using hB
        simp [createSubmissionV1, hA, hB2, outcomeEnvOk, envelopeOk, errFieldOk,
          hasKey, isBoolJ, isStrJ]
  · cases hA : (truthyS number && truthyS ty && truthyI capacity && truthyI price) with
    | false =>
      simp [createRoom, hA, outcomeEnvOk, envelopeOk, errFieldOk, hasKey,
        isBoolJ, isStrJ, mkErr]
    | true =>
      cases hB : s.rooms.any (fun r => r.number == number.getD "") with
      | true =>
        have hB2 : ∃ r ∈ s.rooms, r.number = number.getD "" := by
          simpa using hB
        simp [createRoom, hA, hB2, outcomeEnvOk, envelopeOk, errFieldOk, hasKey,
          isBoolJ, isStrJ, mkErr]
      | false =>
        have hB2 : ∀ r ∈ s.rooms, ¬ r.number = number.getD "" := by
          simpa using hB
        have hB3 : ¬ ∃ r ∈ s.rooms, r.number = number.getD "" := by
          rintro ⟨r, hr, he⟩
          exact hB2 r hr he
        simp [createRoom, hA, hB3, outcomeEnvOk, envelopeOk, errFieldOk, hasKey,
          isBoolJ, isStrJ]
  · cases hA : s.rooms.all (fun r => !(r.id == roomId)) with
    | true =>
      unfold updateRoom
      rw [hA]
      simp [outcomeEnvOk, envelopeOk, errFieldOk, hasKey, isBoolJ, isStrJ, mkErr]
    | false =>
      cases number with
      | none =>
        unfold updateRoom
        rw [hA]
        simp [outcomeEnvOk, envelopeOk, errFieldOk, hasKey, isBoolJ, isStrJ, mkErr]
      | some n =>
        cases ty with
        | none =>
          unfold updateRoom
          rw [hA]
          simp [outcomeEnvOk, envelopeOk, errFieldOk, hasKey, isBoolJ, isStrJ, mkErr]
        | some t =>
          cases capacity with
          | none =>
            unfold updateRoom
            rw [hA]
            simp [outcomeEnvOk, envelopeOk, errFieldOk, hasKey, isBoolJ, isStrJ,
              mkErr]
          | some cp =>
            cases price with
            | none =>
              unfold updateRoom
              rw [hA]
              simp [outcomeEnvOk, envelopeOk, errFieldOk, hasKey, isBoolJ,
                isStrJ, mkErr]
            | some pr =>
              cases hB : s.rooms.any (fun r => !(r.id == roomId) && r.number == n) with
              | true =>
                unfold updateRoom
                rw [hA]
                simp only [Bool.false_eq_true, if_false]
                rw [hB]
                simp [outcomeEnvOk, envelopeOk, errFieldOk, hasKey, isBoolJ,
                  isStrJ, mkErr]
              | false =>
                unfold updateRoom
                rw [hA]
                simp only [Bool.false_eq_true, if_false]
                rw [hB]
                simp [outcomeEnvOk, envelopeOk, errFieldOk, hasKey, isBoolJ,
                  isStrJ]
  · cases hA : s.rooms.all (fun r => !(r.id == roomId)) with
    | true =>
      unfold deleteRoom
      rw [hA]
      simp [outcomeEnvOk, envelopeOk, errFieldOk, hasKey, isBoolJ, isStrJ, mkErr]
    | false =>
      unfold deleteRoom
      rw [hA]
      simp [outcomeEnvOk, envelopeOk, errFieldOk, hasKey, isBoolJ, isStrJ]
  · cases hA : (selectSubmissions s).mapM transformSub with
    | none =>
      unfold getSubmissions
      rw [hA]
      simp [outcomeBareArr]
    | some objs =>
      unfold getSubmissions
      rw [hA]
      simp [outcomeBareArr, isArrJ]
  · cases hA : (selectRooms s).mapM transformRoom with
    | none =>
      unfold getRooms
      rw [hA]
      simp [outcomeBareArr]
    | some objs =>
      unfold getRooms
      rw [hA]
      simp [outcomeBareArr, isArrJ]
  · simp [getSubmissionsV1, outcomeEnvOk, envelopeOk, errFieldOk, hasKey,
      isBoolJ, isStrJ]

end HotelBack
